import Mathlib

/-!
Verification of the hierarchical drag-and-drop reorder engine described in
`spec.md` against the demo implementations in `src/drag-n-drop-01/src/demos/`
and `src/unnamed/`.

The embeddings below translate the TypeScript drag handlers into pure Lean
functions.  JavaScript array operations (`splice`, `indexOf`, `findIndex`,
`find`, `filter`, `slice`, `startsWith`) are modelled by the `js*` helpers,
which reproduce JavaScript's index conventions (`-1` for "not found",
negative `splice` start indices counting from the end, clamping of insertion
positions to the array length).  React `setState` updater chains are modelled
by sequential function application to an explicit state value; `JSON.parse
(JSON.stringify x)` deep copies are the identity on the pure values modelled
here.
-/

/-- JavaScript `Array.prototype.findIndex`: first index satisfying the
predicate, `-1` when there is none. -/
def jsFindIdx (p : α → Bool) : List α → Int
  | [] => -1
  | a :: as => if p a then 0 else (let r := jsFindIdx p as; if r = -1 then -1 else r + 1)

/-- JavaScript `Array.prototype.find`: first element satisfying the
predicate. -/
def jsFind (p : α → Bool) : List α → Option α
  | [] => none
  | a :: as => if p a then some a else jsFind p as

/-- JavaScript `Array.prototype.indexOf` (strict equality). -/
def jsIndexOf [DecidableEq α] (l : List α) (x : α) : Int :=
  jsFindIdx (fun y => y = x) l

/-- Insert an element at a (non-negative, already normalised) position, as
`splice(i, 0, x)` does: positions past the end append. -/
def jsInsertAt (l : List α) (i : Nat) (x : α) : List α :=
  l.take i ++ x :: l.drop i

/-- JavaScript `splice` start-index normalisation: a negative index counts
from the end (clamped at 0), a positive one is clamped to the length. -/
def jsNormIdx (len : Nat) (i : Int) : Nat :=
  if i < 0 then ((len : Int) + i).toNat else min i.toNat len

/-- Insert at a raw (possibly negative) JavaScript index. -/
def jsInsertAtInt (l : List α) (i : Int) (x : α) : List α :=
  jsInsertAt l (jsNormIdx l.length i) x

/-- `arrayMove` as defined in `src/unnamed/part_001` (and as imported from
`@dnd-kit/sortable` by the other demos): `splice` the element out at `from`,
then `splice` it back in at `to`.  When the normalised source index is out of
range JavaScript would insert `undefined`; that case is unreachable at every
call site in the demos (they guard with `indexOf !== -1` or call with indices
of present elements), and the embedding returns the list unchanged there. -/
def arrayMoveJS (l : List α) (f t : Int) : List α :=
  let fi := jsNormIdx l.length f
  match l.get? fi with
  | none => l
  | some x => jsInsertAtInt (l.eraseIdx fi) t x

/-- Lookup in a JavaScript object used as a string-keyed record. -/
def jsLookup (l : List (String × β)) (k : String) : Option β :=
  match l with
  | [] => none
  | (k2, v) :: rest => if k2 = k then some v else jsLookup rest k

/-- `obj[k] = v` on a record whose key `k` is already present (all demo call
sites mutate or replace an existing key); keys are kept in order. -/
def jsSetKey (l : List (String × β)) (k : String) (v : β) : List (String × β) :=
  l.map (fun kv => if kv.1 = k then (kv.1, v) else kv)

/-- Character-list core of JavaScript `String.prototype.startsWith`. -/
def charsAtFront : List Char → List Char → Bool
  | [], _ => true
  | _ :: _, [] => false
  | p :: ps, c :: cs => p = c && charsAtFront ps cs

/-- JavaScript `s.startsWith(pat)`. -/
def jsStartsWith (s pat : String) : Bool :=
  charsAtFront pat.data s.data

/-- JavaScript `s.slice(n)` for a non-negative character index. -/
def jsDropChars (s : String) (n : Nat) : String :=
  String.mk (s.data.drop n)

/-- JavaScript `s.slice(0, n)` for a non-negative character index. -/
def jsTakeChars (s : String) (n : Nat) : String :=
  String.mk (s.data.take n)

/-- JavaScript `s.indexOf(c)` for a single character. -/
def jsCharIndexOf (s : String) (c : Char) : Int :=
  jsFindIdx (fun d => d = c) s.data

/-! ## v4.tsx (`src/drag-n-drop-01/src/demos/v4.tsx`)

Two-level list: top-level entries are items or groups, groups hold child
items (modelled as `id × label` pairs, matching the `ItemType` records). -/

inductive Entry4
  | item (id label : String)
  | group (id label : String) (children : List (String × String))
deriving DecidableEq, Repr

def Entry4.id : Entry4 → String
  | .item i _ => i
  | .group i _ _ => i

/-- The removal `flatMap` of `handleDragEnd` (v4.tsx lines 72-87): drop a
top-level item whose id matches, or splice the first matching child out of a
group; capture the dragged item record. -/
def v4Remove (items : List Entry4) (activeId : String) : List Entry4 × Option (String × String) :=
  items.foldl
    (fun acc e =>
      match e with
      | .item i label =>
          if i = activeId then (acc.1, some (i, label)) else (acc.1 ++ [e], acc.2)
      | .group gid glabel children =>
          match jsFind (fun c => c.1 = activeId) children with
          | some c =>
              let idx := jsFindIdx (fun c2 => c2.1 = activeId) children
              (acc.1 ++ [.group gid glabel (children.eraseIdx idx.toNat)], some c)
          | none => (acc.1 ++ [e], acc.2))
    ([], none)

/-- `handleDragEnd` of v4.tsx (lines 64-107): remove the dragged item, push
it into the hovered group if `over.id` is a group, otherwise — only when no
top-level entry carries `over.id` — splice it back at `over.id`'s index in
the ORIGINAL `items` array (`-1`, i.e. before the last element, when the
hovered element is nested). -/
def v4DragEnd (items : List Entry4) (activeId overId : String) : List Entry4 :=
  if activeId = overId then items
  else
    let rm := v4Remove items activeId
    match rm.2 with
    | none => items
    | some dragged =>
        let pushed := rm.1.map (fun e =>
          match e with
          | .group gid glabel children =>
              if gid = overId then .group gid glabel (children ++ [dragged]) else e
          | _ => e)
        if pushed.any (fun e => e.id = overId) then pushed
        else jsInsertAtInt pushed (jsFindIdx (fun e => e.id = overId) items) (.item dragged.1 dragged.2)

/-- Total number of elements (items plus groups, children included) — the
`entryCount` of spec §4.1 computed on a v4 tree. -/
def entryCount4 (items : List Entry4) : Nat :=
  items.foldl
    (fun n e =>
      match e with
      | .item _ _ => n + 1
      | .group _ _ children => n + 1 + children.length)
    0

/-- C1: dropping the top-level item `a` onto the top-level item `b` in v4's
`handleDragEnd` removes `a` from the tree without reinserting it anywhere:
the dragged element is lost and the item+group count drops from 2 to 1,
violating the conservation invariant the spec states for every completed
move. -/
theorem c1_v4_drag_end_loses_item :
    v4DragEnd [.item "a" "Item A", .item "b" "Item B"] "a" "b" = [.item "b" "Item B"]
      ∧ entryCount4 [.item "a" "Item A", .item "b" "Item B"] = 2
      ∧ entryCount4 (v4DragEnd [.item "a" "Item A", .item "b" "Item B"] "a" "b") = 1 := by
  exact ⟨rfl, rfl, rfl⟩


/-! ## Generic facts about the JavaScript helpers -/

theorem jsFindIdx_append_cons_true (p : α → Bool) (l₁ : List α) (x : α) (l₂ : List α)
    (h : ∀ e ∈ l₁, p e = false) (hx : p x = true) :
    jsFindIdx p (l₁ ++ x :: l₂) = l₁.length := by
  induction l₁ with
  | nil => simp [jsFindIdx, hx]
  | cons a as ih =>
    have ha : p a = false := h a (by simp)
    have ih2 := ih (fun e he => h e (by simp [he]))
    have hne : ((as.length : Int)) ≠ -1 := by omega
    simp only [List.cons_append, jsFindIdx, ha, Bool.false_eq_true, if_false,
      List.append_eq, ih2, if_neg hne, List.length_cons]
    push_cast
    ring

theorem jsFind_append_of_none (p : α → Bool) (l₁ l₂ : List α)
    (h : ∀ e ∈ l₁, p e = false) :
    jsFind p (l₁ ++ l₂) = jsFind p l₂ := by
  induction l₁ with
  | nil => simp
  | cons a as ih =>
    have ha : p a = false := h a (by simp)
    simp only [List.cons_append, jsFind, ha, Bool.false_eq_true, if_false]
    exact ih (fun e he => h e (by simp [he]))

theorem eraseIdx_append_len (l₁ : List α) (x : α) (l₂ : List α) :
    (l₁ ++ x :: l₂).eraseIdx l₁.length = l₁ ++ l₂ := by
  induction l₁ with
  | nil => simp [List.eraseIdx]
  | cons a as ih => simp [List.eraseIdx, ih]

theorem take_append_len (l₁ l₂ : List α) : (l₁ ++ l₂).take l₁.length = l₁ := by
  induction l₁ with
  | nil => simp
  | cons a as ih => simp [ih]

theorem drop_append_len (l₁ l₂ : List α) : (l₁ ++ l₂).drop l₁.length = l₂ := by
  induction l₁ with
  | nil => simp
  | cons a as ih => simp [ih]

/-! ## v6.tsx (`src/drag-n-drop-01/src/demos/v6.tsx`)

Elements are items (`ItemType`, an id/content record) or groups whose
children are `ItemType` records. -/

structure Item6 where
  id : String
  content : String
deriving DecidableEq, Repr

inductive Element6
  | item (it : Item6)
  | group (id title : String) (items : List Item6)
deriving DecidableEq, Repr

def Element6.elemId : Element6 → String
  | .item it => it.id
  | .group i _ _ => i

def Element6.isGroup : Element6 → Bool
  | .item _ => false
  | .group _ _ _ => true

/-- `removeGroup` of v6.tsx (lines 271-290): find the group, splice it out of
the top-level array at its index, and splice its child items back in at the
very same index. -/
def removeGroup6 (elements : List Element6) (groupId : String) : List Element6 :=
  match jsFind (fun el => el.elemId = groupId && el.isGroup) elements with
  | none => elements
  | some g =>
      let groupIndex := (jsFindIdx (fun el => el.elemId = groupId) elements).toNat
      let newElements := elements.eraseIdx groupIndex
      newElements.take groupIndex
        ++ (match g with
            | .group _ _ its => its.map Element6.item
            | .item _ => [])
        ++ newElements.drop groupIndex

/-! ## v0.tsx (`src/drag-n-drop-01/src/demos/v0.tsx`) -/

inductive DraggableItem0
  | item (id content : String)
  | group (id title : String) (items : List (String × String))
deriving DecidableEq, Repr

def DraggableItem0.itemId : DraggableItem0 → String
  | .item i _ => i
  | .group i _ _ => i

/-- `handleRemoveGroup` of v0.tsx (lines 196-204): filter the group out of
the list and spread its child items at the END of the result.  The `find ...
as Group` cast would crash at runtime on a non-group id; the remove button
only exists on groups, so that branch is unreachable and modelled as the
identity. -/
def handleRemoveGroup0 (prevItems : List DraggableItem0) (groupId : String) : List DraggableItem0 :=
  match jsFind (fun it => it.itemId = groupId) prevItems with
  | some (.group _ _ its) =>
      prevItems.filter (fun it => it.itemId ≠ groupId)
        ++ its.map (fun c => .item c.1 c.2)
  | _ => prevItems

/-- C2 counterexample: in v0's `handleRemoveGroup`, removing group `g1`
(which sits at root index 0 and owns child `c`) yields `[x, c]`: the child is
appended to the END of the root list, not relocated to the group's former
position (`[c, x]`), contradicting the claim for this variant. -/
theorem c2_v0_children_moved_to_end :
    handleRemoveGroup0 [.group "g1" "Group 1" [("c", "C")], .item "x" "X"] "g1"
        = [.item "x" "X", .item "c" "C"]
      ∧ [DraggableItem0.item "x" "X", .item "c" "C"] ≠ [DraggableItem0.item "c" "C", .item "x" "X"] := by
  exact ⟨rfl, by decide⟩

/-- C2 (amended): v6's `removeGroup` does satisfy the claimed policy — for a
tree whose root is `pre ++ [group g] ++ post` with no earlier occurrence of
the group's id, the group disappears and its children appear as root items
exactly at its former position, in their original order. -/
theorem c2_v6_removeGroup_relocates_children (pre post : List Element6)
    (gid title : String) (gitems : List Item6)
    (hpre : ∀ e ∈ pre, e.elemId ≠ gid) :
    removeGroup6 (pre ++ Element6.group gid title gitems :: post) gid
      = pre ++ gitems.map Element6.item ++ post := by
  have h1 : ∀ e ∈ pre, (decide (e.elemId = gid) && e.isGroup) = false := by
    intro e he
    simp [hpre e he]
  have h2 : ∀ e ∈ pre, (decide (e.elemId = gid)) = false := by
    intro e he
    simp [hpre e he]
  have hfind : jsFind (fun el => el.elemId = gid && el.isGroup)
      (pre ++ Element6.group gid title gitems :: post)
      = some (Element6.group gid title gitems) := by
    rw [jsFind_append_of_none _ _ _ h1]
    simp [jsFind, Element6.elemId, Element6.isGroup]
  have hidx : jsFindIdx (fun el => decide (el.elemId = gid))
      (pre ++ Element6.group gid title gitems :: post) = pre.length :=
    jsFindIdx_append_cons_true _ _ _ _ h2 (by simp [Element6.elemId])
  unfold removeGroup6
  rw [hfind, hidx]
  simp only [Int.toNat_natCast]
  rw [eraseIdx_append_len, take_append_len, drop_append_len]

/-- C2 witness: the amended v6 statement evaluated on a concrete tree. -/
theorem c2_v6_removeGroup_witness :
    removeGroup6 ([Element6.item ⟨"a", "A"⟩]
        ++ Element6.group "g" "G" [⟨"c1", "C1"⟩, ⟨"c2", "C2"⟩] :: [Element6.item ⟨"b", "B"⟩]) "g"
      = [Element6.item ⟨"a", "A"⟩]
        ++ [Item6.mk "c1" "C1", Item6.mk "c2" "C2"].map Element6.item
        ++ [Element6.item ⟨"b", "B"⟩] :=
  c2_v6_removeGroup_relocates_children _ _ _ _ _ (by decide)

/-! ## v1.tsx (`src/drag-n-drop-01/src/demos/v1.tsx`)

Committed state: free-standing root items, groups with child items, and the
`activeParentId` tracker.  `handleDragOver` runs on every pointer-move while
a drag is active. -/

structure V1Item where
  id : String
  content : String
deriving DecidableEq, Repr

structure V1Group where
  id : String
  name : String
  items : List V1Item
deriving DecidableEq, Repr

structure V1State where
  items : List V1Item
  groups : List V1Group
  activeParentId : Option String
deriving DecidableEq, Repr

inductive V1Type
  | ITEM
  | GROUP
deriving DecidableEq, Repr

structure V1Event where
  activeId : String
  over : Option String
  activeType : Option V1Type
deriving DecidableEq, Repr

/-- `handleDragOver` of v1.tsx (lines 183-242), run on every pointer-move:
when an item is dragged over a group it REMOVES the item from the root list
and from its previous parent group and APPENDS it to the hovered group —
mutating the committed containers mid-gesture.  The `activeItem` looked up in
the second updater comes from the render-time closures (the pre-update
state), which is modelled by reading from the incoming state `s`. -/
def v1DragOver (s : V1State) (e : V1Event) : V1State :=
  match e.over with
  | none => s
  | some overId =>
      if e.activeType ≠ some V1Type.ITEM ∨ e.activeId = overId then s
      else
        match jsFind (fun g => g.id = overId) s.groups with
        | none => s
        | some overGroup =>
            let items2 := s.items.filter (fun it => it.id ≠ e.activeId)
            let groups1 : List V1Group :=
              match s.activeParentId with
              | some p =>
                  s.groups.map (fun (g : V1Group) =>
                    if g.id = p then { g with items := g.items.filter (fun it => it.id ≠ e.activeId) }
                    else g)
              | none => s.groups
            let groups2 := groups1.map (fun (g : V1Group) =>
              if g.id = overGroup.id then
                if ¬ (g.items.any (fun it => it.id = e.activeId)) then
                  let activeItem : Option V1Item :=
                    match s.activeParentId with
                    | some p =>
                        (jsFind (fun (g2 : V1Group) => g2.id = p) s.groups).bind
                          (fun g2 => jsFind (fun (it : V1Item) => it.id = e.activeId) g2.items)
                    | none => jsFind (fun (it : V1Item) => it.id = e.activeId) s.items
                  match activeItem with
                  | some it => { g with items := g.items ++ [it] }
                  | none => g
                else g
              else g)
            { items := items2, groups := groups2, activeParentId := some overGroup.id }

/-- C3 counterexample: one pointer-move of v1's `handleDragOver` — dragging
root item `item-1` over `group-1` — already changes the committed tree (the
item leaves the root list and enters the group's children), before any drop
has happened.  So drag-over processing does NOT only update a preview. -/
theorem c3_v1_drag_over_mutates_committed_state :
    v1DragOver ⟨[⟨"item-1", "Item 1"⟩], [⟨"group-1", "Group 1", []⟩], none⟩
        ⟨"item-1", some "group-1", some V1Type.ITEM⟩
      = ⟨[], [⟨"group-1", "Group 1", [⟨"item-1", "Item 1"⟩]⟩], some "group-1"⟩
      ∧ (⟨[], [⟨"group-1", "Group 1", [⟨"item-1", "Item 1"⟩]⟩], some "group-1"⟩ : V1State)
        ≠ ⟨[⟨"item-1", "Item 1"⟩], [⟨"group-1", "Group 1", []⟩], none⟩ := by
  exact ⟨rfl, by decide⟩

/-- C3 (amended): v1's drag-over leaves the committed state untouched
exactly in the cases where the hovered element is not one of its groups —
the mutation happens whenever an item is dragged over a group. -/
theorem c3_v1_drag_over_no_group_no_change (s : V1State) (e : V1Event)
    (overId : String) (hov : e.over = some overId)
    (hng : jsFind (fun g => g.id = overId) s.groups = none) :
    v1DragOver s e = s := by
  by_cases hty : e.activeType ≠ some V1Type.ITEM ∨ e.activeId = overId
  · simp [v1DragOver, hov, hty]
  · simp [v1DragOver, hov, hty, hng]

/-- C3 witness for the amended statement: hovering over another root item
(not a group) changes nothing. -/
theorem c3_v1_drag_over_witness :
    v1DragOver ⟨[⟨"item-1", "Item 1"⟩, ⟨"item-2", "Item 2"⟩], [⟨"group-1", "Group 1", []⟩], none⟩
        ⟨"item-1", some "item-2", some V1Type.ITEM⟩
      = ⟨[⟨"item-1", "Item 1"⟩, ⟨"item-2", "Item 2"⟩], [⟨"group-1", "Group 1", []⟩], none⟩ :=
  c3_v1_drag_over_no_group_no_change _ _ "item-2" rfl (by decide)

/-! ## v9-gemini-2-5-pro.tsx (`src/drag-n-drop-01/src/demos/v9-gemini-2-5-pro.tsx`)

`AppState`: a root order of ids, an id-keyed map of item records (each
carrying an explicit `groupId` ownership field) and an id-keyed map of group
records (each carrying its ordered `itemIds`).  `handleDragEnd` receives the
active/over ids plus the `data.current` payloads registered on the
draggables/droppables (`type`, and for the dedicated drop zones the zone
kind and its group id). -/

structure Item9 where
  id : String
  content : String
  groupId : Option String
deriving DecidableEq, Repr

structure Group9 where
  id : String
  title : String
  itemIds : List String
deriving DecidableEq, Repr

structure AppState9 where
  rootOrder : List String
  items : List (String × Item9)
  groups : List (String × Group9)
deriving DecidableEq, Repr

inductive DType9
  | item
  | group
deriving DecidableEq, Repr

inductive DZKind9
  | above
  | below
deriving DecidableEq, Repr

/-- A drag-end event: `active.id`, `over?.id`, `active.data.current?.type`,
and — when `over.data.current?.type` is `dropzone-above`/`dropzone-below` —
the zone kind together with `over.data.current?.groupId`.  No group in the
demo is named `"root"`, so the `'root'` sentinel string of the source is
modelled by a tagged container id. -/
structure Event9 where
  activeId : String
  over : Option String
  activeType : Option DType9
  dropZone : Option (DZKind9 × Option String)
deriving DecidableEq, Repr

inductive Cont9
  | root
  | group (g : String)
deriving DecidableEq, Repr

/-- Target container & index resolution of `handleDragEnd` (lines 407-451):
hovered group ⇒ that group (index left `-1`); hovered item ⇒ the item's
container and its index there; drop zone with a group id ⇒ root, before or
after that group (append when the group is missing); a root id ⇒ root at its
index; otherwise the warned fallback: root append (the re-`findGroup` arm is
dead because `overGroup` was already `none`). -/
def v9Target (s : AppState9) (e : Event9) (overId : String) : Option Cont9 × Int :=
  let overItem := jsLookup s.items overId
  let overGroup := jsLookup s.groups overId
  if overGroup.isSome then (some (.group overId), -1)
  else
    match overItem with
    | some oi =>
        match oi.groupId with
        | none => (some .root, jsIndexOf s.rootOrder overId)
        | some gc =>
            (some (.group gc),
              match jsLookup s.groups gc with
              | some g => jsIndexOf g.itemIds overId
              | none => -1)
    | none =>
        match e.dropZone with
        | some (kind, some gz) =>
            let rgi := jsIndexOf s.rootOrder gz
            (some .root,
              if rgi ≠ -1 then (if kind = DZKind9.above then rgi else rgi + 1)
              else (s.rootOrder.length : Int))
        | _ =>
            if overId ∈ s.rootOrder then (some .root, jsIndexOf s.rootOrder overId)
            else
              if (jsLookup s.groups overId).isSome then (some (.group overId), -1)
              else (some .root, (s.rootOrder.length : Int))

/-- Group-move branch of `handleDragEnd` (lines 456-491): compute the target
root index (collapsing an in-group target to that group's root position),
clamp invalid indices to a root append, and `arrayMove` the root order. -/
def v9GroupMove (s : AppState9) (activeId : String) (tc : Option Cont9) (ti : Int) : AppState9 :=
  let activeIndex := jsIndexOf s.rootOrder activeId
  let gti0 : Int :=
    if tc = some Cont9.root then ti
    else
      match tc with
      | some (.group t) =>
          if (jsLookup s.groups t).isSome then jsIndexOf s.rootOrder t else -1
      | _ => -1
  let gti : Int :=
    if gti0 < 0 ∨ gti0 > (s.rootOrder.length : Int) then (s.rootOrder.length : Int) else gti0
  if activeIndex ≠ -1 ∧ activeIndex ≠ gti then
    { s with rootOrder := arrayMoveJS s.rootOrder activeIndex gti }
  else s

/-- Same-container sorting branch of `handleDragEnd` (lines 508-556). -/
def v9SameContainer (s : AppState9) (activeId overId : String) (tc : Cont9) : AppState9 :=
  match tc with
  | .root =>
      let ai := jsIndexOf s.rootOrder activeId
      let oi := jsIndexOf s.rootOrder overId
      if ai ≠ -1 ∧ oi ≠ -1 then { s with rootOrder := arrayMoveJS s.rootOrder ai oi }
      else s
  | .group gid =>
      match jsLookup s.groups gid with
      | some g =>
          let ai := jsIndexOf g.itemIds activeId
          let oi0 := jsIndexOf g.itemIds overId
          let oi := if overId = gid then (g.itemIds.length : Int) else oi0
          if ai ≠ -1 ∧ oi ≠ -1 then
            { s with groups := jsSetKey s.groups gid { g with itemIds := arrayMoveJS g.itemIds ai oi } }
          else s
      | none => s

/-- `item.groupId = v` on the items map (the record is present at every call
site: the branch requires `activeItem` to have been found). -/
def v9SetItemGroupId (s : AppState9) (activeId : String) (v : Option String) : AppState9 :=
  { s with items := s.items.map (fun kv =>
      if kv.1 = activeId then (kv.1, { kv.2 with groupId := v }) else kv) }

/-- Source-removal step of the cross-container branch (lines 561-569). -/
def v9Remove (s : AppState9) (activeId : String) (src : Cont9) : AppState9 :=
  match src with
  | .root =>
      let i := jsIndexOf s.rootOrder activeId
      if i > -1 then { s with rootOrder := s.rootOrder.eraseIdx i.toNat } else s
  | .group gsrc =>
      match jsLookup s.groups gsrc with
      | some gr =>
          let i := jsIndexOf gr.itemIds activeId
          if i > -1 then
            { s with groups := jsSetKey s.groups gsrc { gr with itemIds := gr.itemIds.eraseIdx i.toNat } }
          else s
      | none => s

/-- Cross-container branch of `handleDragEnd` (lines 558-602): remove from
the source container, update the moved item's `groupId` field, then insert —
into root at `targetIndex` when it lies in `[0, length]` (push to the end
otherwise), or into the target group's `itemIds` at `targetIndex` clamped to
the list length (`-1` and too-large indices append).  A missing target group
returns the untouched original state (`return prevState`). -/
def v9CrossMove (s0 s : AppState9) (activeId : String) (src tgt : Cont9) (ti : Int) : AppState9 :=
  let s1 := v9Remove s activeId src
  match tgt with
  | .root =>
      let s2 := v9SetItemGroupId s1 activeId none
      if 0 ≤ ti ∧ ti ≤ (s2.rootOrder.length : Int) then
        { s2 with rootOrder := jsInsertAt s2.rootOrder ti.toNat activeId }
      else
        { s2 with rootOrder := s2.rootOrder ++ [activeId] }
  | .group t =>
      match jsLookup s1.groups t with
      | some g =>
          let s2 := v9SetItemGroupId s1 activeId (some t)
          let ii := if ti ≠ -1 ∧ ti ≤ (g.itemIds.length : Int) then ti.toNat else g.itemIds.length
          { s2 with groups := jsSetKey s2.groups t { g with itemIds := jsInsertAt g.itemIds ii activeId } }
      | none => s0

/-- `handleDragEnd` of v9 (lines 361-607): guard, resolve source container
and target, then dispatch to the group-move / same-container / cross-
container logic.  (`setActiveId(null)` is presentation state, not part of
the tree.) -/
def v9DragEnd (s : AppState9) (e : Event9) : AppState9 :=
  match e.over with
  | none => s
  | some overId =>
      if e.activeId = overId then s
      else
        let activeItem := jsLookup s.items e.activeId
        let activeGroup := jsLookup s.groups e.activeId
        let src : Option Cont9 :=
          match activeItem with
          | some it =>
              match it.groupId with
              | some g => some (.group g)
              | none => if e.activeId ∈ s.rootOrder then some .root else none
          | none => if e.activeId ∈ s.rootOrder then some .root else none
        let tres := v9Target s e overId
        if e.activeType = some DType9.group ∧ activeGroup.isSome then
          v9GroupMove s e.activeId tres.1 tres.2
        else
          if e.activeType = some DType9.item ∧ activeItem.isSome ∧ src.isSome ∧ tres.1.isSome then
            let overGroup := jsLookup s.groups overId
            let adj : Cont9 × Int :=
              match tres.1 with
              | some tc =>
                  if overGroup.isSome ∧ tc = Cont9.group overId then
                    (Cont9.group overId,
                      (((jsLookup s.groups overId).map (fun g => g.itemIds.length)).getD 0 : Int))
                  else (tc, tres.2)
              | none => (Cont9.root, tres.2)
            match src with
            | some sc =>
                if sc = adj.1 ∧ ¬ e.dropZone.isSome then v9SameContainer s e.activeId overId sc
                else v9CrossMove s s e.activeId sc adj.1 adj.2
            | none => s
          else s

/-! ## part_001 (`src/unnamed/part_001`)

Top-level entries are items or groups; each group id maps to its list of
`GroupItem` records (modelled as `id × content` pairs).  Draggable ids are
encoded strings (`top-item-<id>`, `group-<groupId>`,
`group-item-<groupId>-<itemId>`, `group-placeholder-<groupId>`), decoded by
`parseDraggableId`. -/

inductive P1Parsed
  | topItem (itemId : String)
  | groupItem (groupId itemId : String)
  | group (groupId : String)
  | unknown
deriving DecidableEq, Repr

/-- `parseDraggableId` of part_001 (lines 34-47), including the JavaScript
`slice` behaviour when no dash is found (`dashIndex = -1`: the group id is
everything but the last character and the item id is the whole rest). -/
def parseDraggableId (id : String) : P1Parsed :=
  if jsStartsWith id "top-item-" then .topItem (jsDropChars id 9)
  else if jsStartsWith id "group-item-" then
    let rest := jsDropChars id 11
    let dashIndex := jsCharIndexOf rest '-'
    let groupId :=
      if dashIndex < 0 then jsTakeChars rest (rest.data.length - 1)
      else jsTakeChars rest dashIndex.toNat
    let itemId := jsDropChars rest (dashIndex + 1).toNat
    .groupItem groupId itemId
  else if jsStartsWith id "group-" then .group (jsDropChars id 6)
  else .unknown

inductive P1Top
  | item (id content : String)
  | group (id : String)
deriving DecidableEq, Repr

structure P1State where
  topLevel : List P1Top
  groupItems : List (String × List (String × String))
deriving DecidableEq, Repr

/-- The `data` payload registered on each draggable (`container`,
`content`). -/
structure P1Data where
  container : String
  content : String
deriving DecidableEq, Repr

structure P1Event where
  activeId : String
  over : Option String
  activeData : Option P1Data
  overData : Option P1Data
deriving DecidableEq, Repr

/-- The render-time `topLevelIds` array (lines 85-87). -/
def p1TopIds (topLevel : List P1Top) : List String :=
  topLevel.map (fun en =>
    match en with
    | .item i _ => "top-item-" ++ i
    | .group g => "group-" ++ g)

/-- Cross-container arm of part_001's `handleDragEnd` (lines 145-201):
remove the moving item from its source container, then insert it into the
destination — for a `top` destination at the hovered id's index in the
RENDER-TIME top-level id list (JavaScript `splice` semantics for `-1`), for
a group destination at the hovered item's index in that group's render-time
id list (placeholder ⇒ 0, not found ⇒ append).  Missing record keys would
crash in JavaScript and are modelled by the empty list (unreachable from the
UI). -/
def p1CrossInsert (s : P1State) (aD oD : P1Data) (overIdStr itemId content : String) : P1State :=
  let s1 : P1State :=
    if aD.container = "top" then
      { s with topLevel := s.topLevel.filter (fun en =>
          match en with
          | .item i _ => ¬ (i = itemId)
          | .group _ => true) }
    else
      let newGi := jsSetKey s.groupItems aD.container
        (((jsLookup s.groupItems aD.container).getD []).filter (fun it => it.1 ≠ itemId))
      { s with groupItems := newGi }
  if oD.container = "top" then
    let destIndex := jsIndexOf (p1TopIds s.topLevel) overIdStr
    { s1 with topLevel := jsInsertAtInt s1.topLevel destIndex (.item itemId content) }
  else
    let destGroup := oD.container
    let destIndex : Nat :=
      if jsStartsWith overIdStr ("group-placeholder-" ++ destGroup) then 0
      else
        let gIds := ((jsLookup s.groupItems destGroup).getD []).map
          (fun it => "group-item-" ++ destGroup ++ "-" ++ it.1)
        let d := jsIndexOf gIds overIdStr
        if d = -1 then ((jsLookup s.groupItems destGroup).getD []).length else d.toNat
    let newGi := jsSetKey s1.groupItems destGroup
      (jsInsertAt ((jsLookup s1.groupItems destGroup).getD []) destIndex (itemId, content))
    { s1 with groupItems := newGi }

/-- `handleDragEnd` of part_001 (lines 95-204): no-op when `over` or either
`data` payload is missing; same-container drops reorder with `arrayMove`
(only when the two indices differ); cross-container drops are rejected for
groups and unknown ids and otherwise delegate to the remove-and-insert
logic. -/
def p1DragEnd (s : P1State) (e : P1Event) : P1State :=
  match e.over with
  | none => s
  | some overIdStr =>
      match e.activeData, e.overData with
      | some aD, some oD =>
          if aD.container = oD.container then
            if aD.container = "top" then
              let ids := p1TopIds s.topLevel
              let oldIndex := jsIndexOf ids e.activeId
              let newIndex := jsIndexOf ids overIdStr
              if oldIndex ≠ newIndex then
                { s with topLevel := arrayMoveJS s.topLevel oldIndex newIndex }
              else s
            else
              let gid := aD.container
              let idsG := ((jsLookup s.groupItems gid).getD []).map
                (fun it => "group-item-" ++ gid ++ "-" ++ it.1)
              let oldIndex := jsIndexOf idsG e.activeId
              let newIndex := jsIndexOf idsG overIdStr
              if oldIndex ≠ newIndex then
                let newGi := jsSetKey s.groupItems gid
                  (arrayMoveJS ((jsLookup s.groupItems gid).getD []) oldIndex newIndex)
                { s with groupItems := newGi }
              else s
          else
            match parseDraggableId e.activeId with
            | .unknown => s
            | .group _ => s
            | .topItem itemId => p1CrossInsert s aD oD overIdStr itemId aD.content
            | .groupItem _ itemId => p1CrossInsert s aD oD overIdStr itemId aD.content
      | _, _ => s

/-- The initial state of the part_001 demo (lines 61-76). -/
def p1InitialState : P1State :=
  { topLevel := [.item "1" "Item 1", .group "g1", .item "2" "Item 2", .group "g2", .item "3" "Item 3"],
    groupItems :=
      [("g1", [("1", "Group 1 - Item A"), ("2", "Group 1 - Item B")]),
       ("g2", [("1", "Group 2 - Item A")])] }

/-- The initial state of the v9 demo (`initialData`, lines 55-119). -/
def v9InitialState : AppState9 :=
  { rootOrder := ["item-1", "group-a", "item-4", "group-b", "item-6"],
    items :=
      [("item-1", ⟨"item-1", "Item 1 (Root)", none⟩),
       ("item-2", ⟨"item-2", "Item 2 (Group A)", some "group-a"⟩),
       ("item-3", ⟨"item-3", "Item 3 (Group A)", some "group-a"⟩),
       ("item-4", ⟨"item-4", "Item 4 (Root)", none⟩),
       ("item-5", ⟨"item-5", "Item 5 (Group B)", some "group-b"⟩),
       ("item-6", ⟨"item-6", "Item 6 (Root)", none⟩),
       ("item-7", ⟨"item-7", "Item 7 (Group B)", some "group-b"⟩)],
    groups :=
      [("group-a", ⟨"group-a", "Group A", ["item-2", "item-3"]⟩),
       ("group-b", ⟨"group-b", "Group B", ["item-5", "item-7"]⟩)] }

/-! ## Frame lemmas for the v9 embedding -/

/-- A group drag in v9 can only rearrange `rootOrder`: the `items` and
`groups` maps are untouched by `v9GroupMove`. -/
theorem v9GroupMove_frame (s : AppState9) (a : String) (tc : Option Cont9) (ti : Int) :
    (v9GroupMove s a tc ti).items = s.items ∧ (v9GroupMove s a tc ti).groups = s.groups := by
  refine ⟨?_, ?_⟩ <;>
    (unfold v9GroupMove
     dsimp only
     repeat' split) <;> rfl

/-- The source-removal step never touches the items map. -/
theorem v9Remove_items (s : AppState9) (a : String) (src : Cont9) :
    (v9Remove s a src).items = s.items := by
  unfold v9Remove
  dsimp only
  repeat' split
  all_goals rfl

theorem jsLookup_cons (k2 : String) (v2 : β) (rest : List (String × β)) (k : String) :
    jsLookup ((k2, v2) :: rest) k = if k2 = k then some v2 else jsLookup rest k := rfl

theorem jsSetKey_cons (k2 : String) (v2 : β) (rest : List (String × β)) (k : String) (v : β) :
    jsSetKey ((k2, v2) :: rest) k v
      = (if k2 = k then (k2, v) else (k2, v2)) :: jsSetKey rest k v := rfl

theorem jsLookup_jsSetKey_self (l : List (String × β)) (k : String) (v : β)
    (h : (jsLookup l k).isSome) : jsLookup (jsSetKey l k v) k = some v := by
  induction l with
  | nil => simp [jsLookup] at h
  | cons kv rest ih =>
      obtain ⟨k2, v2⟩ := kv
      rw [jsSetKey_cons]
      by_cases hk : k2 = k
      · rw [if_pos hk, jsLookup_cons, if_pos hk]
      · rw [if_neg hk, jsLookup_cons, if_neg hk]
        rw [jsLookup_cons, if_neg hk] at h
        exact ih h

theorem jsInsertAt_length (l : List α) (i : Nat) (x : α) :
    (jsInsertAt l i x).length = l.length + 1 := by
  simp only [jsInsertAt, List.length_append, List.length_cons, List.length_take,
    List.length_drop]
  omega

theorem jsInsertAt_mem (l : List α) (i : Nat) (x : α) : x ∈ jsInsertAt l i x := by
  simp [jsInsertAt]

theorem jsInsertAt_at_length (l : List α) (x : α) : jsInsertAt l l.length x = l ++ [x] := by
  simp [jsInsertAt]

theorem insertAt_eraseIdx_get (l : List α) (i : Nat) (h : i < l.length) :
    jsInsertAt (l.eraseIdx i) i (l.get ⟨i, h⟩) = l := by
  induction l generalizing i with
  | nil => simp at h
  | cons a as ih =>
      cases i with
      | zero => simp [jsInsertAt, List.eraseIdx]
      | succ n =>
          simp only [List.eraseIdx, jsInsertAt, List.take, List.drop, List.get]
          have := ih n (by simpa using h)
          simpa [jsInsertAt] using congrArg (List.cons a) this

/-- `arrayMove l i i = l` for any in-range index (out of range, JavaScript
would insert `undefined`, which the demos never trigger). -/
theorem arrayMoveJS_self (l : List α) (i : Nat) (h : i < l.length) :
    arrayMoveJS l (i : Int) (i : Int) = l := by
  have h1 : jsNormIdx l.length (i : Int) = i := by
    simp only [jsNormIdx, Int.toNat_natCast]
    split
    · omega
    · omega
  have h2 : jsNormIdx (l.eraseIdx i).length (i : Int) = i := by
    have hl : (l.eraseIdx i).length = l.length - 1 := by
      simp [List.length_eraseIdx, h]
    simp only [jsNormIdx, Int.toNat_natCast, hl]
    split
    · omega
    · omega
  have h3 : l.get? i = some (l.get ⟨i, h⟩) := List.get?_eq_get h
  simp only [arrayMoveJS, h1, h3, jsInsertAtInt, h2]
  exact insertAt_eraseIdx_get l i h

/-! ## C9: a drag ending over empty space (null `over`) -/

/-- C9 counterexample: ending a drag of `item-1` with `over = null` in v9
leaves the tree exactly as it was — the element is NOT appended to the end
of the root order (the last root entry is still `item-6`); the gesture is
simply discarded. -/
theorem c9_null_over_counterexample :
    v9DragEnd v9InitialState ⟨"item-1", none, some DType9.item, none⟩ = v9InitialState
      ∧ v9InitialState.rootOrder.getLast? = some "item-6"
      ∧ v9InitialState.rootOrder ≠ ["group-a", "item-4", "group-b", "item-6", "item-1"] := by
  exact ⟨rfl, rfl, by decide⟩

/-- C9 (amended): when the drag ends with a null hovered element, both v9's
and part_001's `handleDragEnd` discard the gesture and return the committed
tree unchanged — no append-to-root happens. -/
theorem c9_null_over_discards_gesture :
    (∀ (s : AppState9) (a : String) (t : Option DType9) (dz : Option (DZKind9 × Option String)),
        v9DragEnd s ⟨a, none, t, dz⟩ = s)
      ∧ ∀ (s : P1State) (a : String) (aD oD : Option P1Data),
          p1DragEnd s ⟨a, none, aD, oD⟩ = s := by
  exact ⟨fun s a t dz => rfl, fun s a aD oD => rfl⟩

/-! ## C5: dropping an element at its current location is the identity -/

/-- C5: a move whose destination is the element's current location returns
the tree unchanged — (i) v9's `handleDragEnd` guard returns the state
untouched when the drop lands on the dragged element itself; (ii) the
underlying `arrayMove` used by every variant is the identity when source and
target index coincide; (iii) part_001's top-level reorder is skipped (state
returned unchanged) whenever active and over resolve to the same index. -/
theorem c5_move_to_current_location_identity :
    (∀ (s : AppState9) (a : String) (t : Option DType9) (dz : Option (DZKind9 × Option String)),
        v9DragEnd s ⟨a, some a, t, dz⟩ = s)
      ∧ (∀ (l : List String) (i : Nat), i < l.length → arrayMoveJS l (i : Int) (i : Int) = l)
      ∧ ∀ (s : P1State) (a ov : String) (aD oD : P1Data),
          aD.container = oD.container → aD.container = "top" →
          jsIndexOf (p1TopIds s.topLevel) a = jsIndexOf (p1TopIds s.topLevel) ov →
          p1DragEnd s ⟨a, some ov, some aD, some oD⟩ = s := by
  refine ⟨fun s a t dz => by simp [v9DragEnd], fun l i h => arrayMoveJS_self l i h, ?_⟩
  intro s a ov aD oD hcont htop hidx
  simp only [p1DragEnd]
  rw [if_pos hcont, if_pos htop, if_neg (by simp [hidx])]

/-- C5 witness: the three components evaluated on concrete inputs. -/
theorem c5_witness :
    v9DragEnd v9InitialState ⟨"item-1", some "item-1", some DType9.item, none⟩ = v9InitialState
      ∧ arrayMoveJS ["a", "b", "c"] ((1 : Nat) : Int) ((1 : Nat) : Int) = ["a", "b", "c"]
      ∧ p1DragEnd p1InitialState
          ⟨"top-item-1", some "top-item-1", some ⟨"top", "Item 1"⟩, some ⟨"top", "Item 1"⟩⟩
        = p1InitialState :=
  ⟨c5_move_to_current_location_identity.1 v9InitialState "item-1" (some DType9.item) none,
   c5_move_to_current_location_identity.2.1 ["a", "b", "c"] 1 (by decide),
   c5_move_to_current_location_identity.2.2 p1InitialState "top-item-1" "top-item-1"
     ⟨"top", "Item 1"⟩ ⟨"top", "Item 1"⟩ rfl rfl rfl⟩

/-! ## C4: moving a group into another group -/

/-- C4 counterexample: in v9, dropping group `group-a` onto `item-5` (an
item INSIDE `group-b`, i.e. a `GroupPosition` destination) is not a no-op:
`group-a` is relocated within the root order to `group-b`'s position, so the
returned tree is not structurally equal to the input. -/
theorem c4_group_onto_group_interior_not_noop :
    v9DragEnd v9InitialState ⟨"group-a", some "item-5", some DType9.group, none⟩
        ≠ v9InitialState
      ∧ (v9DragEnd v9InitialState ⟨"group-a", some "item-5", some DType9.group, none⟩).rootOrder
        = ["item-1", "item-4", "group-b", "group-a", "item-6"] := by
  exact ⟨by decide, rfl⟩

/-- C4 (amended): a group dropped into another group is never nested —
part_001 rejects any cross-container drag of a group outright (the state is
returned unchanged), and in v9 a drag whose active element is a group can
only permute `rootOrder`: the `items` and `groups` maps (and hence every
group's `itemIds`) are exactly those of the input tree, so depth stays ≤ 2. -/
theorem c4_group_moves_never_nest :
    (∀ (s : P1State) (e : P1Event) (ov : String) (aD oD : P1Data) (g : String),
        e.over = some ov → e.activeData = some aD → e.overData = some oD →
        aD.container ≠ oD.container → parseDraggableId e.activeId = P1Parsed.group g →
        p1DragEnd s e = s)
      ∧ ∀ (s : AppState9) (e : Event9), e.activeType = some DType9.group →
          (v9DragEnd s e).items = s.items ∧ (v9DragEnd s e).groups = s.groups := by
  constructor
  · intro s e ov aD oD g hov haD hoD hne hparse
    obtain ⟨aid, over, ad, od⟩ := e
    simp only at hov haD hoD hparse
    subst hov haD hoD
    unfold p1DragEnd
    simp [hne, hparse]
  · intro s e hty
    obtain ⟨aid, over, aty, dz⟩ := e
    simp only at hty
    subst hty
    cases over with
    | none => exact ⟨rfl, rfl⟩
    | some ov =>
        by_cases heq : aid = ov
        · simp [v9DragEnd, heq]
        · by_cases hag : (jsLookup s.groups aid).isSome
          · have : v9DragEnd s ⟨aid, some ov, some DType9.group, dz⟩
                = v9GroupMove s aid (v9Target s ⟨aid, some ov, some DType9.group, dz⟩ ov).1
                    (v9Target s ⟨aid, some ov, some DType9.group, dz⟩ ov).2 := by
              unfold v9DragEnd
              simp [heq, hag]
            rw [this]
            exact v9GroupMove_frame s aid _ _
          · unfold v9DragEnd
            simp [heq, hag]

/-- C4 witness: part_001's rejection and v9's frame property on concrete
inputs (dragging group `g1` over an item of `g2`; dragging `group-a` over
`item-5`). -/
theorem c4_witness :
    p1DragEnd p1InitialState
        ⟨"group-g1", some "group-item-g2-1", some ⟨"top", "Group g1"⟩, some ⟨"g2", "Group 2 - Item A"⟩⟩
      = p1InitialState
      ∧ (v9DragEnd v9InitialState ⟨"group-a", some "item-5", some DType9.group, none⟩).items
        = v9InitialState.items
      ∧ (v9DragEnd v9InitialState ⟨"group-a", some "item-5", some DType9.group, none⟩).groups
        = v9InitialState.groups :=
  ⟨c4_group_moves_never_nest.1 p1InitialState
      ⟨"group-g1", some "group-item-g2-1", some ⟨"top", "Group g1"⟩, some ⟨"g2", "Group 2 - Item A"⟩⟩
      "group-item-g2-1" ⟨"top", "Group g1"⟩ ⟨"g2", "Group 2 - Item A"⟩ "g1"
      rfl rfl rfl (by decide) (by decide),
   (c4_group_moves_never_nest.2 v9InitialState
      ⟨"group-a", some "item-5", some DType9.group, none⟩ rfl).1,
   (c4_group_moves_never_nest.2 v9InitialState
      ⟨"group-a", some "item-5", some DType9.group, none⟩ rfl).2⟩

/-! ## C7: index clamping on cross-container insertion -/

theorem v9SetItemGroupId_items (s : AppState9) (a : String) (v : Option String) :
    (v9SetItemGroupId s a v).items
      = s.items.map (fun kv => if kv.1 = a then (kv.1, { kv.2 with groupId := v }) else kv) := rfl

theorem v9SetItemGroupId_groups (s : AppState9) (a : String) (v : Option String) :
    (v9SetItemGroupId s a v).groups = s.groups := rfl

/-- C7: for ANY requested target index `ti` (including `-1` and huge
out-of-range values), v9's cross-container insertion into a group clamps the
insertion position to `[0, length]` of the destination's child list as found
AFTER the removal step, and the insert always succeeds: the destination
group gains exactly the moved element (length grows by one, the element is a
member); in particular a request of index 9999 on a group with 2 children
inserts at index 2, i.e. appends at the end. -/
theorem c7_cross_insert_clamps_index (s0 s : AppState9) (a t : String) (src : Cont9)
    (ti : Int) (g : Group9)
    (hg : jsLookup (v9Remove s a src).groups t = some g) :
    ∃ i ≤ g.itemIds.length,
      jsLookup (v9CrossMove s0 s a src (Cont9.group t) ti).groups t
          = some { g with itemIds := jsInsertAt g.itemIds i a }
        ∧ (jsInsertAt g.itemIds i a).length = g.itemIds.length + 1
        ∧ a ∈ jsInsertAt g.itemIds i a
        ∧ (ti = 9999 → g.itemIds.length = 2 → jsInsertAt g.itemIds i a = g.itemIds ++ [a]) := by
  have hsome : (jsLookup (v9Remove s a src).groups t).isSome := by
    rw [hg]
    rfl
  refine ⟨if ti ≠ -1 ∧ ti ≤ (g.itemIds.length : Int) then ti.toNat else g.itemIds.length,
    ?_, ?_, jsInsertAt_length _ _ _, jsInsertAt_mem _ _ _, ?_⟩
  · split
    · next hc => omega
    · omega
  · simp only [v9CrossMove, hg, v9SetItemGroupId_groups]
    exact jsLookup_jsSetKey_self _ _ _ hsome
  · intro h99 hl2
    subst h99
    rw [if_neg (by rw [hl2]; norm_num), jsInsertAt_at_length]

def c7State : AppState9 :=
  { rootOrder := ["x", "g"],
    items := [("x", ⟨"x", "X", none⟩)],
    groups := [("g", ⟨"g", "G", ["p", "q"]⟩)] }

/-- C7 witness: requesting index 9999 on a 2-child group appends at the end
and never fails. -/
theorem c7_witness :
    jsLookup (v9CrossMove c7State c7State "x" Cont9.root (Cont9.group "g") 9999).groups "g"
      = some (Group9.mk "g" "G" ["p", "q", "x"]) := by
  obtain ⟨i, hle, hlook, hlen, hmem, h99⟩ :=
    c7_cross_insert_clamps_index c7State c7State "x" "g" Cont9.root 9999
      (Group9.mk "g" "G" ["p", "q"]) (by decide)
  rw [hlook, h99 rfl rfl]
  rfl

/-! ## C10: what a cross-container move does to the item records -/

theorem mapSetGroupId_cons (k2 : String) (v2 : Item9) (rest : List (String × Item9))
    (a : String) (v : Option String) :
    ((k2, v2) :: rest).map (fun kv => if kv.1 = a then (kv.1, { kv.2 with groupId := v }) else kv)
      = (if k2 = a then (k2, { v2 with groupId := v }) else (k2, v2))
        :: rest.map (fun kv => if kv.1 = a then (kv.1, { kv.2 with groupId := v }) else kv) := rfl

theorem jsLookup_mapSetGroupId_ne (l : List (String × Item9)) (a k : String)
    (v : Option String) (hk : k ≠ a) :
    jsLookup (l.map (fun kv => if kv.1 = a then (kv.1, { kv.2 with groupId := v }) else kv)) k
      = jsLookup l k := by
  induction l with
  | nil => rfl
  | cons kv rest ih =>
      obtain ⟨k2, v2⟩ := kv
      rw [mapSetGroupId_cons]
      by_cases h2 : k2 = a
      · subst h2
        rw [if_pos rfl, jsLookup_cons, jsLookup_cons,
          if_neg (fun hh => hk hh.symm), if_neg (fun hh => hk hh.symm)]
        exact ih
      · rw [if_neg h2, jsLookup_cons, jsLookup_cons]
        by_cases h3 : k2 = k
        · rw [if_pos h3, if_pos h3]
        · rw [if_neg h3, if_neg h3]
          exact ih

theorem jsLookup_mapSetGroupId_self (l : List (String × Item9)) (a : String)
    (v : Option String) (it : Item9) (h : jsLookup l a = some it) :
    jsLookup (l.map (fun kv => if kv.1 = a then (kv.1, { kv.2 with groupId := v }) else kv)) a
      = some { it with groupId := v } := by
  induction l with
  | nil => simp [jsLookup] at h
  | cons kv rest ih =>
      obtain ⟨k2, v2⟩ := kv
      rw [mapSetGroupId_cons]
      by_cases h2 : k2 = a
      · subst h2
        rw [jsLookup_cons, if_pos rfl] at h
        rw [if_pos rfl, jsLookup_cons, if_pos rfl]
        cases h
        rfl
      · rw [jsLookup_cons, if_neg h2] at h
        rw [if_neg h2, jsLookup_cons, if_neg h2]
        exact ih h

/-- C10 counterexample: moving root item `item-1` into `group-a` in v9
rewrites the item record itself — its `groupId` field changes from `null` to
`"group-a"` — so the claim that no field of any item record changes under a
cross-container move is false for the cited code (whose `Item` type carries
the `groupId` ownership field and whose move updates it). -/
theorem c10_item_record_field_changes :
    (jsLookup (v9DragEnd v9InitialState ⟨"item-1", some "group-a", some DType9.item, none⟩).items
        "item-1").map Item9.groupId = some (some "group-a")
      ∧ (jsLookup v9InitialState.items "item-1").map Item9.groupId = some none := by
  exact ⟨rfl, rfl⟩

/-- C10 (amended): on a v9 cross-container move into a group, the moved
item's record is updated in exactly one field — `groupId` becomes the
destination group's id — and every other item record in the map is returned
unchanged (membership changes live entirely in `rootOrder` / `itemIds`). -/
theorem c10_cross_move_only_updates_groupId (s0 s : AppState9) (a t : String) (src : Cont9)
    (ti : Int) (g : Group9) (it : Item9)
    (hg : jsLookup (v9Remove s a src).groups t = some g)
    (hit : jsLookup s.items a = some it) :
    (∀ k, k ≠ a →
        jsLookup (v9CrossMove s0 s a src (Cont9.group t) ti).items k = jsLookup s.items k)
      ∧ jsLookup (v9CrossMove s0 s a src (Cont9.group t) ti).items a
        = some { it with groupId := some t } := by
  have hresult : (v9CrossMove s0 s a src (Cont9.group t) ti).items
      = (v9SetItemGroupId (v9Remove s a src) a (some t)).items := by
    simp only [v9CrossMove, hg]
  constructor
  · intro k hk
    rw [hresult, v9SetItemGroupId_items, jsLookup_mapSetGroupId_ne _ _ _ _ hk, v9Remove_items]
  · rw [hresult, v9SetItemGroupId_items]
    have h2 : jsLookup (v9Remove s a src).items a = some it := by
      rw [v9Remove_items]
      exact hit
    exact jsLookup_mapSetGroupId_self _ _ _ _ h2

def c10State : AppState9 :=
  { rootOrder := ["y", "z", "h"],
    items := [("y", ⟨"y", "Y", none⟩), ("z", ⟨"z", "Z", none⟩)],
    groups := [("h", ⟨"h", "H", []⟩)] }

/-- C10 witness: the amended statement on a concrete move of `y` from root
into group `h`. -/
theorem c10_witness :
    jsLookup (v9CrossMove c10State c10State "y" Cont9.root (Cont9.group "h") 0).items "z"
        = jsLookup c10State.items "z"
      ∧ jsLookup (v9CrossMove c10State c10State "y" Cont9.root (Cont9.group "h") 0).items "y"
        = some (Item9.mk "y" "Y" (some "h")) :=
  ⟨(c10_cross_move_only_updates_groupId c10State c10State "y" "h" Cont9.root 0
      (Group9.mk "h" "H" []) (Item9.mk "y" "Y" none) (by decide) (by decide)).1 "z" (by decide),
   (c10_cross_move_only_updates_groupId c10State c10State "y" "h" Cont9.root 0
      (Group9.mk "h" "H" []) (Item9.mk "y" "Y" none) (by decide) (by decide)).2⟩

/-! ## v10a-columns.tsx and the remove-then-recompute refinement (C6) -/

theorem get?_append_len (l1 : List α) (x : α) (l2 : List α) :
    (l1 ++ x :: l2).get? l1.length = some x := by
  induction l1 with
  | nil => rfl
  | cons a as ih => simpa using ih

theorem set_append_len (l1 : List α) (x y : α) (l2 : List α) :
    (l1 ++ x :: l2).set l1.length y = l1 ++ y :: l2 := by
  induction l1 with
  | nil => rfl
  | cons a as ih => simp [List.set, ih]

theorem jsInsertAt_append_len (l1 l2 : List α) (x : α) :
    jsInsertAt (l1 ++ l2) l1.length x = l1 ++ x :: l2 := by
  simp [jsInsertAt, take_append_len, drop_append_len]

theorem erase_append_cons_self [DecidableEq α] (l1 : List α) (x : α) (l2 : List α)
    (h : x ∉ l1) : (l1 ++ x :: l2).erase x = l1 ++ l2 := by
  induction l1 with
  | nil => simp
  | cons a as ih =>
      have hax : ¬ (a == x) = true := by
        simp only [beq_iff_eq]
        intro he
        exact h (by simp [he])
      simp only [List.cons_append, List.erase_cons]
      rw [if_neg hax]
      rw [ih (fun hm => h (by simp [hm]))]

theorem jsIndexOf_eq_of_split [DecidableEq α] (l1 : List α) (x : α) (l2 : List α)
    (h : x ∉ l1) : jsIndexOf (l1 ++ x :: l2) x = (l1.length : Int) := by
  unfold jsIndexOf
  refine jsFindIdx_append_cons_true _ _ _ _ ?_ (by simp)
  intro e he
  simp only [decide_eq_false_iff_not]
  intro hex
  exact h (hex ▸ he)

inductive DZPos10
  | top
  | bottom
deriving DecidableEq, Repr

/-- The group-over-drop-zone arm of v10a's `handleDragEnd` (lines 858-891):
find both positions in the ORIGINAL right-column list, splice the dragged
group out, decrement the insertion index when the target group came after
the dragged one, then splice back in before (`top`) or after (`bottom`) the
target group. -/
def v10aGroupDropMove (right : List String) (activeId groupId : String) (pos : DZPos10) : List String :=
  let activeIndex := jsIndexOf right activeId
  let targetGroupIndex := jsIndexOf right groupId
  if activeIndex ≠ -1 ∧ targetGroupIndex ≠ -1 then
    let r1 := right.eraseIdx activeIndex.toNat
    let insertIndex := if targetGroupIndex > activeIndex then targetGroupIndex - 1 else targetGroupIndex
    if pos = DZPos10.top then jsInsertAt r1 insertIndex.toNat activeId
    else jsInsertAt r1 (insertIndex + 1).toNat activeId
  else right

/-- Modelled from the spec for the refinement comparison (spec §4.3 step 4):
remove the element from its container first, producing the intermediate
list, then recompute the target's index against that intermediate list (not
the original), then insert before or after it. -/
def specRemoveThenInsert (right : List String) (activeId groupId : String) (pos : DZPos10) : List String :=
  if activeId ∈ right ∧ groupId ∈ right then
    let r1 := right.erase activeId
    let gIdx := (jsIndexOf r1 groupId).toNat
    if pos = DZPos10.top then jsInsertAt r1 gIdx activeId
    else jsInsertAt r1 (gIdx + 1) activeId
  else right

theorem v10a_spec_caseA (l1 l2 l3 : List String) (a g : String) (pos : DZPos10)
    (ha1 : a ∉ l1) (hg1 : g ∉ l1) (hg2 : g ∉ l2) (hga : g ≠ a) :
    v10aGroupDropMove (l1 ++ a :: (l2 ++ g :: l3)) a g pos
      = specRemoveThenInsert (l1 ++ a :: (l2 ++ g :: l3)) a g pos := by
  have hai : jsIndexOf (l1 ++ a :: (l2 ++ g :: l3)) a = (l1.length : Int) :=
    jsIndexOf_eq_of_split l1 a (l2 ++ g :: l3) ha1
  have hgi : jsIndexOf (l1 ++ a :: (l2 ++ g :: l3)) g = (((l1 ++ a :: l2).length : Nat) : Int) := by
    have h3 : g ∉ l1 ++ a :: l2 := by
      simp only [List.mem_append, List.mem_cons]
      rintro (h | h | h)
      · exact hg1 h
      · exact hga h
      · exact hg2 h
    have h4 := jsIndexOf_eq_of_split (l1 ++ a :: l2) g l3 h3
    simpa only [List.append_assoc, List.cons_append] using h4
  have hcond : ((l1.length : Int) ≠ -1 ∧ (((l1 ++ a :: l2).length : Nat) : Int) ≠ -1) := by
    constructor <;> omega
  have hmem : a ∈ l1 ++ a :: (l2 ++ g :: l3) ∧ g ∈ l1 ++ a :: (l2 ++ g :: l3) := by
    constructor <;> simp
  have her : (l1 ++ a :: (l2 ++ g :: l3)).eraseIdx l1.length = l1 ++ (l2 ++ g :: l3) :=
    eraseIdx_append_len l1 a (l2 ++ g :: l3)
  have hera : (l1 ++ a :: (l2 ++ g :: l3)).erase a = l1 ++ (l2 ++ g :: l3) :=
    erase_append_cons_self l1 a (l2 ++ g :: l3) ha1
  have hgt : (((l1 ++ a :: l2).length : Nat) : Int) > (l1.length : Int) := by
    simp only [List.length_append, List.length_cons]
    omega
  have hgi2 : jsIndexOf (l1 ++ (l2 ++ g :: l3)) g = (((l1 ++ l2).length : Nat) : Int) := by
    have h4 : g ∉ l1 ++ l2 := by
      simp only [List.mem_append]
      rintro (h | h)
      · exact hg1 h
      · exact hg2 h
    have h5 := jsIndexOf_eq_of_split (l1 ++ l2) g l3 h4
    simpa only [List.append_assoc, List.cons_append] using h5
  cases pos with
  | top =>
      have hidx : ((((l1 ++ a :: l2).length : Nat) : Int) - 1).toNat = (l1 ++ l2).length := by
        simp only [List.length_append, List.length_cons]
        omega
      simp only [v10aGroupDropMove, specRemoveThenInsert, hai, hgi, if_pos hcond, if_pos hmem,
        Int.toNat_natCast, her, hera, if_pos hgt, if_pos rfl, if_true, hidx, hgi2]
  | bottom =>
      have hidx : (((((l1 ++ a :: l2).length : Nat) : Int) - 1) + 1).toNat = (l1 ++ l2).length + 1 := by
        simp only [List.length_append, List.length_cons]
        omega
      simp only [v10aGroupDropMove, specRemoveThenInsert, hai, hgi, if_pos hcond, if_pos hmem,
        Int.toNat_natCast, her, hera, if_pos hgt, if_neg (by decide : ¬ DZPos10.bottom = DZPos10.top),
        hidx, hgi2]

theorem v10a_spec_caseB (l1 l2 l3 : List String) (a g : String) (pos : DZPos10)
    (hg1 : g ∉ l1) (ha1 : a ∉ l1) (ha2 : a ∉ l2) (hag : a ≠ g) :
    v10aGroupDropMove (l1 ++ g :: (l2 ++ a :: l3)) a g pos
      = specRemoveThenInsert (l1 ++ g :: (l2 ++ a :: l3)) a g pos := by
  have hai : jsIndexOf (l1 ++ g :: (l2 ++ a :: l3)) a = (((l1 ++ g :: l2).length : Nat) : Int) := by
    have h3 : a ∉ l1 ++ g :: l2 := by
      simp only [List.mem_append, List.mem_cons]
      rintro (h | h | h)
      · exact ha1 h
      · exact hag h
      · exact ha2 h
    have h4 := jsIndexOf_eq_of_split (l1 ++ g :: l2) a l3 h3
    simpa only [List.append_assoc, List.cons_append] using h4
  have hgi : jsIndexOf (l1 ++ g :: (l2 ++ a :: l3)) g = (l1.length : Int) :=
    jsIndexOf_eq_of_split l1 g (l2 ++ a :: l3) hg1
  have hcond : ((((l1 ++ g :: l2).length : Nat) : Int) ≠ -1 ∧ (l1.length : Int) ≠ -1) := by
    constructor <;> omega
  have hmem : a ∈ l1 ++ g :: (l2 ++ a :: l3) ∧ g ∈ l1 ++ g :: (l2 ++ a :: l3) := by
    constructor <;> simp
  have hngt : ¬ ((l1.length : Int) > (((l1 ++ g :: l2).length : Nat) : Int)) := by
    simp only [List.length_append, List.length_cons]
    omega
  have her : (l1 ++ g :: (l2 ++ a :: l3)).eraseIdx ((l1 ++ g :: l2).length) = l1 ++ g :: (l2 ++ l3) := by
    have h4 := eraseIdx_append_len (l1 ++ g :: l2) a l3
    simpa only [List.append_assoc, List.cons_append] using h4
  have hera : (l1 ++ g :: (l2 ++ a :: l3)).erase a = l1 ++ g :: (l2 ++ l3) := by
    have h3 : a ∉ l1 ++ g :: l2 := by
      simp only [List.mem_append, List.mem_cons]
      rintro (h | h | h)
      · exact ha1 h
      · exact hag h
      · exact ha2 h
    have h4 := erase_append_cons_self (l1 ++ g :: l2) a l3 h3
    simpa only [List.append_assoc, List.cons_append] using h4
  have hgi2 : jsIndexOf (l1 ++ g :: (l2 ++ l3)) g = (l1.length : Int) :=
    jsIndexOf_eq_of_split l1 g (l2 ++ l3) hg1
  cases pos with
  | top =>
      simp only [v10aGroupDropMove, specRemoveThenInsert, hai, hgi, if_pos hcond, if_pos hmem,
        Int.toNat_natCast, her, hera, if_neg hngt, if_pos rfl, if_true, hgi2]
  | bottom =>
      simp only [v10aGroupDropMove, specRemoveThenInsert, hai, hgi, if_pos hcond, if_pos hmem,
        Int.toNat_natCast, Int.toNat_natCast_add_one, her, hera, if_neg hngt,
        if_neg (by decide : ¬ DZPos10.bottom = DZPos10.top), hgi2]

/-- The item-into-group arm of v6's `handleDragEnd` (lines 616-661,
`dropTarget.type === 'inside-group'`): look the target group up in the
ORIGINAL array, remove the dragged root item, then RE-FIND the group and its
index in the post-removal array and append the item to its children.  The
source casts `newElements[itemIndex] as ItemType` under the guard
`activeElement?.type === 'item'`; a non-item at that index is unreachable
and modelled as the identity.  A vanished target group restores the original
array (`setElements([...elements])`). -/
def v6ItemIntoGroup (elements : List Element6) (activeId overId : String) : List Element6 :=
  let targetGroupIndex := jsFindIdx (fun el => el.elemId = overId && el.isGroup) elements
  if targetGroupIndex ≠ -1 then
    let itemIndex := jsFindIdx (fun el => el.elemId = activeId) elements
    if itemIndex = -1 then elements
    else
      match elements.get? itemIndex.toNat with
      | some (Element6.item it2) =>
          let newElements := elements.eraseIdx itemIndex.toNat
          match jsFind (fun el => el.elemId = overId && el.isGroup) newElements with
          | some (Element6.group gid2 title2 its2) =>
              let newTargetGroupIndex := jsFindIdx (fun el => el.elemId = overId) newElements
              newElements.set newTargetGroupIndex.toNat (Element6.group gid2 title2 (its2 ++ [it2]))
          | _ => elements
      | _ => elements
  else elements

/-- Cross-container recompute property of v6's inside-group drop: with the
dragged root item sitting BEFORE the target group, the removal shifts the
group one slot down, and because the code recomputes the group's index
against the post-removal array the item still lands inside that group
(appended at the end of its children) and every other element keeps its
relative position. -/
theorem v6ItemIntoGroup_spec (pre mid post : List Element6) (it : Item6)
    (gid gtitle : String) (gitems : List Item6)
    (hpre : ∀ e ∈ pre, e.elemId ≠ it.id)
    (hg1 : ∀ e ∈ pre, e.elemId ≠ gid) (hg2 : ∀ e ∈ mid, e.elemId ≠ gid)
    (hne : it.id ≠ gid) :
    v6ItemIntoGroup (pre ++ Element6.item it :: (mid ++ Element6.group gid gtitle gitems :: post))
        it.id gid
      = pre ++ (mid ++ Element6.group gid gtitle (gitems ++ [it]) :: post) := by
  have hl1 : ∀ e ∈ pre ++ Element6.item it :: mid,
      (decide (e.elemId = gid) && e.isGroup) = false := by
    intro e he
    rcases List.mem_append.mp he with h | h
    · simp [hg1 e h]
    · rcases List.mem_cons.mp h with h2 | h2
      · subst h2
        simp [Element6.elemId, hne]
      · simp [hg2 e h2]
  have htgi : jsFindIdx (fun el => el.elemId = gid && el.isGroup)
      (pre ++ Element6.item it :: (mid ++ Element6.group gid gtitle gitems :: post))
      = (((pre ++ Element6.item it :: mid).length : Nat) : Int) := by
    have h4 := jsFindIdx_append_cons_true (fun el => el.elemId = gid && el.isGroup)
      (pre ++ Element6.item it :: mid) (Element6.group gid gtitle gitems) post hl1
      (by simp [Element6.elemId, Element6.isGroup])
    simpa only [List.append_assoc, List.cons_append] using h4
  have hc1 : ((((pre ++ Element6.item it :: mid).length : Nat) : Int)) ≠ -1 := by omega
  have hii : jsFindIdx (fun el => el.elemId = it.id)
      (pre ++ Element6.item it :: (mid ++ Element6.group gid gtitle gitems :: post))
      = ((pre.length : Nat) : Int) :=
    jsFindIdx_append_cons_true _ pre _ _ (fun e he => by simp [hpre e he])
      (by simp [Element6.elemId])
  have hc2 : ¬ (((pre.length : Nat) : Int) = -1) := by omega
  have hget : (pre ++ Element6.item it :: (mid ++ Element6.group gid gtitle gitems :: post)).get?
      pre.length = some (Element6.item it) :=
    get?_append_len pre (Element6.item it) (mid ++ Element6.group gid gtitle gitems :: post)
  have her : (pre ++ Element6.item it :: (mid ++ Element6.group gid gtitle gitems :: post)).eraseIdx
      pre.length = pre ++ (mid ++ Element6.group gid gtitle gitems :: post) :=
    eraseIdx_append_len pre (Element6.item it) (mid ++ Element6.group gid gtitle gitems :: post)
  have hl2 : ∀ e ∈ pre ++ mid, (decide (e.elemId = gid) && e.isGroup) = false := by
    intro e he
    rcases List.mem_append.mp he with h | h
    · simp [hg1 e h]
    · simp [hg2 e h]
  have hfind : jsFind (fun el => el.elemId = gid && el.isGroup)
      (pre ++ (mid ++ Element6.group gid gtitle gitems :: post))
      = some (Element6.group gid gtitle gitems) := by
    have h6 := jsFind_append_of_none (fun el => el.elemId = gid && el.isGroup)
      (pre ++ mid) (Element6.group gid gtitle gitems :: post) hl2
    simp only [List.append_assoc] at h6
    rw [h6]
    simp [jsFind, Element6.elemId, Element6.isGroup]
  have hl3 : ∀ e ∈ pre ++ mid, (decide (e.elemId = gid)) = false := by
    intro e he
    rcases List.mem_append.mp he with h | h
    · simp [hg1 e h]
    · simp [hg2 e h]
  have hntg : jsFindIdx (fun el => el.elemId = gid)
      (pre ++ (mid ++ Element6.group gid gtitle gitems :: post))
      = (((pre ++ mid).length : Nat) : Int) := by
    have h7 := jsFindIdx_append_cons_true (fun el => el.elemId = gid) (pre ++ mid)
      (Element6.group gid gtitle gitems) post hl3 (by simp [Element6.elemId])
    simpa only [List.append_assoc] using h7
  have hset : (pre ++ (mid ++ Element6.group gid gtitle gitems :: post)).set
      ((pre ++ mid).length) (Element6.group gid gtitle (gitems ++ [it]))
      = pre ++ (mid ++ Element6.group gid gtitle (gitems ++ [it]) :: post) := by
    have h8 := set_append_len (pre ++ mid) (Element6.group gid gtitle gitems)
      (Element6.group gid gtitle (gitems ++ [it])) post
    simpa only [List.append_assoc] using h8
  simp only [v6ItemIntoGroup, htgi, if_pos hc1, hii, if_neg hc2, Int.toNat_natCast, hget,
    her, hfind, hntg, hset]

/-- C6: the move algorithm removes first and indexes against the
post-removal state — (i)/(ii) v10a's same-container group move (splice out,
decrement the insertion index when the removal position lies before it,
splice in) computes exactly the remove-first-then-recompute-the-index
procedure of the spec, whichever side of the target the dragged element
starts on; (iii) v6's cross-container item-into-group drop recomputes the
target group's index against the intermediate array produced by the removal,
so the item lands inside the group (appended to its children) even though
the removal shifted the group's position. -/
theorem c6_remove_first_then_recompute_index :
    (∀ (l1 l2 l3 : List String) (a g : String) (pos : DZPos10),
        a ∉ l1 → g ∉ l1 → g ∉ l2 → g ≠ a →
        v10aGroupDropMove (l1 ++ a :: (l2 ++ g :: l3)) a g pos
          = specRemoveThenInsert (l1 ++ a :: (l2 ++ g :: l3)) a g pos)
      ∧ (∀ (l1 l2 l3 : List String) (a g : String) (pos : DZPos10),
          g ∉ l1 → a ∉ l1 → a ∉ l2 → a ≠ g →
          v10aGroupDropMove (l1 ++ g :: (l2 ++ a :: l3)) a g pos
            = specRemoveThenInsert (l1 ++ g :: (l2 ++ a :: l3)) a g pos)
      ∧ ∀ (pre mid post : List Element6) (it : Item6) (gid gtitle : String)
          (gitems : List Item6),
          (∀ e ∈ pre, e.elemId ≠ it.id) → (∀ e ∈ pre, e.elemId ≠ gid) →
          (∀ e ∈ mid, e.elemId ≠ gid) → it.id ≠ gid →
          v6ItemIntoGroup
              (pre ++ Element6.item it :: (mid ++ Element6.group gid gtitle gitems :: post))
              it.id gid
            = pre ++ (mid ++ Element6.group gid gtitle (gitems ++ [it]) :: post) :=
  ⟨fun l1 l2 l3 a g pos h1 h2 h3 h4 => v10a_spec_caseA l1 l2 l3 a g pos h1 h2 h3 h4,
   fun l1 l2 l3 a g pos h1 h2 h3 h4 => v10a_spec_caseB l1 l2 l3 a g pos h1 h2 h3 h4,
   fun pre mid post it gid gtitle gitems h1 h2 h3 h4 =>
     v6ItemIntoGroup_spec pre mid post it gid gtitle gitems h1 h2 h3 h4⟩

/-- C6 witness: the three components on concrete lists. -/
theorem c6_witness :
    v10aGroupDropMove (["r1"] ++ "ga" :: (["r2"] ++ "gb" :: ["r3"])) "ga" "gb" DZPos10.top
        = specRemoveThenInsert (["r1"] ++ "ga" :: (["r2"] ++ "gb" :: ["r3"])) "ga" "gb" DZPos10.top
      ∧ v10aGroupDropMove (["r1"] ++ "gb" :: (["r2"] ++ "ga" :: ["r3"])) "ga" "gb" DZPos10.bottom
        = specRemoveThenInsert (["r1"] ++ "gb" :: (["r2"] ++ "ga" :: ["r3"])) "ga" "gb" DZPos10.bottom
      ∧ v6ItemIntoGroup
          ([Element6.item ⟨"x", "X"⟩]
            ++ Element6.item ⟨"i", "I"⟩
              :: ([Element6.item ⟨"y", "Y"⟩] ++ Element6.group "g" "G" [⟨"c", "C"⟩] :: []))
          "i" "g"
        = [Element6.item ⟨"x", "X"⟩]
            ++ ([Element6.item ⟨"y", "Y"⟩] ++ Element6.group "g" "G" [⟨"c", "C"⟩, ⟨"i", "I"⟩] :: []) :=
  ⟨c6_remove_first_then_recompute_index.1 ["r1"] ["r2"] ["r3"] "ga" "gb" DZPos10.top
      (by decide) (by decide) (by decide) (by decide),
   c6_remove_first_then_recompute_index.2.1 ["r1"] ["r2"] ["r3"] "ga" "gb" DZPos10.bottom
      (by decide) (by decide) (by decide) (by decide),
   c6_remove_first_then_recompute_index.2.2 [Element6.item ⟨"x", "X"⟩] [Element6.item ⟨"y", "Y"⟩]
      [] ⟨"i", "I"⟩ "g" "G" [⟨"c", "C"⟩] (by decide) (by decide) (by decide) (by decide)⟩

/-! ## C8: the margin-band drop classifier of v6 -/

structure Rect6 where
  top : ℚ
  bottom : ℚ
  height : ℚ
deriving DecidableEq

inductive DropPos6
  | beforeElement
  | afterElement
  | insideGroup
deriving DecidableEq, Repr

/-- `determineDropPositionForGroup` of v6.tsx (lines 337-369): with the
hovered group's box and the dragged element's current top coordinate, a band
of `min(25% of the box height, 20px)` at the top edge resolves to
before-element, the mirror band at the bottom edge to after-element, and the
interior to inside-group.  The `!over`, `!overRect` and `!activeOffset`
guards (all resolving to inside-group) are collapsed into the two `Option`
arguments.  JavaScript's `0.25` is exactly `1/4`, and coordinates are
modelled as rationals. -/
def determineDropPositionForGroup (overRect : Option Rect6) (activeTop : Option ℚ) : DropPos6 :=
  match overRect with
  | none => .insideGroup
  | some r =>
      match activeTop with
      | none => .insideGroup
      | some y =>
          let topRegionSize := min (r.height * (1/4)) 20
          let bottomRegionSize := min (r.height * (1/4)) 20
          if y < r.top + topRegionSize then .beforeElement
          else if y > r.bottom - bottomRegionSize then .afterElement
          else .insideGroup

/-- C8: the drop classifier follows the margin-band rule — within
`min(25% of height, 20px)` of the top edge resolves to before, within that
band of the bottom edge (and not the top band, which wins ties) to after,
and the interior to inside-group; and an inside-group drop of v6's
`handleDragEnd` puts the dragged item INSIDE the hovered group, appended as
the last of its children. -/
theorem c8_margin_band_classifier :
    (∀ (r : Rect6) (y : ℚ),
        (y - r.top < min (r.height * (1 / 4)) 20 →
          determineDropPositionForGroup (some r) (some y) = DropPos6.beforeElement)
        ∧ (¬ (y - r.top < min (r.height * (1 / 4)) 20) →
            r.bottom - y < min (r.height * (1 / 4)) 20 →
            determineDropPositionForGroup (some r) (some y) = DropPos6.afterElement)
        ∧ (min (r.height * (1 / 4)) 20 ≤ y - r.top →
            min (r.height * (1 / 4)) 20 ≤ r.bottom - y →
            determineDropPositionForGroup (some r) (some y) = DropPos6.insideGroup))
      ∧ ∀ (pre mid post : List Element6) (it : Item6) (gid gtitle : String)
          (gitems : List Item6),
          (∀ e ∈ pre, e.elemId ≠ it.id) → (∀ e ∈ pre, e.elemId ≠ gid) →
          (∀ e ∈ mid, e.elemId ≠ gid) → it.id ≠ gid →
          jsFind (fun el => el.elemId = gid && el.isGroup)
              (v6ItemIntoGroup
                (pre ++ Element6.item it :: (mid ++ Element6.group gid gtitle gitems :: post))
                it.id gid)
            = some (Element6.group gid gtitle (gitems ++ [it]))
          ∧ (gitems ++ [it]).getLast? = some it := by
  constructor
  · intro r y
    refine ⟨?_, ?_, ?_⟩
    · intro h
      have hc : y < r.top + min (r.height * (1 / 4)) 20 := by linarith
      simp only [determineDropPositionForGroup]
      rw [if_pos hc]
    · intro h1 h2
      have hc1 : ¬ (y < r.top + min (r.height * (1 / 4)) 20) := by
        intro hy
        exact h1 (by linarith)
      have hc2 : y > r.bottom - min (r.height * (1 / 4)) 20 := by linarith
      simp only [determineDropPositionForGroup]
      rw [if_neg hc1, if_pos hc2]
    · intro h1 h2
      have hc1 : ¬ (y < r.top + min (r.height * (1 / 4)) 20) := by
        intro hy
        exact absurd h1 (by push_neg; linarith)
      have hc2 : ¬ (y > r.bottom - min (r.height * (1 / 4)) 20) := by
        intro hy
        exact absurd h2 (by push_neg; linarith)
      simp only [determineDropPositionForGroup]
      rw [if_neg hc1, if_neg hc2]
  · intro pre mid post it gid gtitle gitems h1 h2 h3 h4
    rw [v6ItemIntoGroup_spec pre mid post it gid gtitle gitems h1 h2 h3 h4]
    constructor
    · have hl2 : ∀ e ∈ pre ++ mid, (decide (e.elemId = gid) && e.isGroup) = false := by
        intro e he
        rcases List.mem_append.mp he with h | h
        · simp [h2 e h]
        · simp [h3 e h]
      have h6 := jsFind_append_of_none (fun el => el.elemId = gid && el.isGroup)
        (pre ++ mid) (Element6.group gid gtitle (gitems ++ [it]) :: post) hl2
      simp only [List.append_assoc] at h6
      rw [h6]
      simp [jsFind, Element6.elemId, Element6.isGroup]
    · simp

def c8Rect : Rect6 := { top := 0, bottom := 100, height := 100 }

/-- C8 witness: on a 100px-high box the band is `min(25, 20) = 20`; the
classifier answers before / after / inside at offsets 10, 95 and 50, and a
concrete inside-group drop appends the item at the end of the hovered
group's children. -/
theorem c8_witness :
    determineDropPositionForGroup (some c8Rect) (some 10) = DropPos6.beforeElement
      ∧ determineDropPositionForGroup (some c8Rect) (some 95) = DropPos6.afterElement
      ∧ determineDropPositionForGroup (some c8Rect) (some 50) = DropPos6.insideGroup
      ∧ jsFind (fun el => el.elemId = "g" && el.isGroup)
          (v6ItemIntoGroup
            ([] ++ Element6.item ⟨"i", "I"⟩ :: ([] ++ Element6.group "g" "G" [⟨"c", "C"⟩] :: []))
            "i" "g")
        = some (Element6.group "g" "G" [⟨"c", "C"⟩, ⟨"i", "I"⟩]) :=
  ⟨(c8_margin_band_classifier.1 c8Rect 10).1 (by norm_num [c8Rect]),
   (c8_margin_band_classifier.1 c8Rect 95).2.1 (by norm_num [c8Rect]) (by norm_num [c8Rect]),
   (c8_margin_band_classifier.1 c8Rect 50).2.2 (by norm_num [c8Rect]) (by norm_num [c8Rect]),
   ((c8_margin_band_classifier.2 [] [] [] ⟨"i", "I"⟩ "g" "G" [⟨"c", "C"⟩]
      (by decide) (by decide) (by decide) (by decide)).1)⟩
